import Mathlib

/-
  Verification of the JSON-RPC 2.0 library in include/jsonrpc.hpp
  (namespace pooriayousefi, built on nlohmann::json).

  The value tree is a shallow embedding of nlohmann::json: null, boolean,
  signed integer, unsigned integer, floating point, string, array, object.
  Objects are modelled as association lists accessed only through keyed
  lookup, mirroring the std::map the library relies on.  Operations of the
  nlohmann API that can throw (value() with a type-mismatched member,
  at() with a missing key) are modelled in Except, because the library
  calls them outside of any try/catch in several places.
-/

inductive Json where
  | null
  | bool (b : Bool)
  | int (n : Int)
  | uint (n : Nat)
  | float
  | str (s : String)
  | arr (elems : List Json)
  | obj (members : List (String × Json))

/-- Keyed lookup in an object member list: first binding wins (the
library only ever builds objects with distinct keys). -/
def lookupKey : List (String × Json) → String → Option Json
  | [], _ => none
  | (k, v) :: rest, key => if k = key then some v else lookupKey rest key

/-- j.find(key) / j[key] read access: some value when j is an object
containing the key, none otherwise. -/
def Json.find? : Json → String → Option Json
  | .obj ms, k => lookupKey ms k
  | _, _ => none

/-- j.contains(key): false on non-objects, like nlohmann. -/
def Json.containsKey (j : Json) (k : String) : Bool := (j.find? k).isSome

def Json.isObject : Json → Bool
  | .obj _ => true
  | _ => false

def Json.isArray : Json → Bool
  | .arr _ => true
  | _ => false

def Json.isNull : Json → Bool
  | .null => true
  | _ => false

def Json.isString : Json → Bool
  | .str _ => true
  | _ => false

/-- nlohmann is_number_integer(): true for signed and unsigned integers. -/
def Json.isNumberInteger : Json → Bool
  | .int _ => true
  | .uint _ => true
  | _ => false

def Json.isNumberUnsigned : Json → Bool
  | .uint _ => true
  | _ => false

/-- nlohmann empty(): true for null and for empty containers, false for
every other primitive (they act as single-element containers). -/
def Json.isEmptyVal : Json → Bool
  | .null => true
  | .arr xs => xs.isEmpty
  | .obj ms => ms.isEmpty
  | _ => false

/-- Member write j[key] = v on an object: replace the binding if the key
exists, append it otherwise. -/
def setKeyList : List (String × Json) → String → Json → List (String × Json)
  | [], k, v => [(k, v)]
  | (k', v') :: rest, k, v =>
      if k' = k then (k, v) :: rest else (k', v') :: setKeyList rest k v

def Json.setKey : Json → String → Json → Json
  | .obj ms, k, v => .obj (setKeyList ms k v)
  | j, _, _ => j

/-- Message of nlohmann type_error.302, raised by get of a string from a
non-string value (the exact what() text is abbreviated). -/
def typeError302 : String := "type_error.302: type must be string"

/-- nlohmann j.value(key, default) with a string default: returns the
default when the key is absent, the string when present with string type,
and throws type_error.302 when present with any other type.  The library
always guards the is_object case first, so the non-object throw
(type_error.306) is also modelled. -/
def Json.valueStr (j : Json) (key : String) (dflt : String) : Except String String :=
  match j with
  | .obj ms =>
      match lookupKey ms key with
      | none => .ok dflt
      | some (.str s) => .ok s
      | some _ => .error typeError302
  | _ => .error "type_error.306: cannot use value() with non-object"

mutual
/-- nlohmann dump(): canonical text of a value.  Only used by the library
through key_for_id on non-string ids (null and numeric in practice);
string escaping and float text are not modelled, no claim depends on
them. -/
def Json.dump : Json → String
  | .null => "null"
  | .bool true => "true"
  | .bool false => "false"
  | .int n => toString n
  | .uint n => toString n
  | .float => "0.0"
  | .str s => "\"" ++ s ++ "\""
  | .arr xs => "[" ++ dumpList xs ++ "]"
  | .obj ms => "\x7b" ++ dumpMembers ms ++ "\x7d"

def dumpList : List Json → String
  | [] => ""
  | [x] => Json.dump x
  | x :: rest => Json.dump x ++ "," ++ dumpList rest

def dumpMembers : List (String × Json) → String
  | [] => ""
  | [(k, v)] => "\"" ++ k ++ "\":" ++ Json.dump v
  | (k, v) :: rest => "\"" ++ k ++ "\":" ++ Json.dump v ++ "," ++ dumpMembers rest
end

/-- struct error: JSON-RPC error object parts (code, message, optional
data defaulting to null). -/
structure error where
  code : Int
  message : String
  data : Json := .null

/-- make_error_object: code and message always, data only when non-null. -/
def make_error_object (e : error) : Json :=
  let j : Json := .obj [("code", .int e.code), ("message", .str e.message)]
  if e.data.isNull then j else j.setKey "data" e.data

def parse_error : error := { code := -32700, message := "Parse error" }
def invalid_request : error := { code := -32600, message := "Invalid Request" }
def method_not_found : error := { code := -32601, message := "Method not found" }
def invalid_params : error := { code := -32602, message := "Invalid params" }
def internal_error : error := { code := -32603, message := "Internal error" }
def request_cancelled : error := { code := -32800, message := "Request cancelled" }

/-- is_request: object, jsonrpc exactly "2.0", has method, has neither
result nor error.  The jsonrpc read goes through value() and can throw. -/
def is_request (j : Json) : Except String Bool :=
  if !j.isObject then .ok false
  else do
    let ver ← j.valueStr "jsonrpc" ""
    return ver = "2.0" && j.containsKey "method" &&
      !j.containsKey "result" && !j.containsKey "error" &&
      (j.containsKey "id" || !j.containsKey "id")

def is_notification (j : Json) : Except String Bool := do
  let r ← is_request j
  return r && !j.containsKey "id"

def is_response (j : Json) : Except String Bool :=
  if !j.isObject then .ok false
  else do
    let ver ← j.valueStr "jsonrpc" ""
    return ver = "2.0" && j.containsKey "id" &&
      (j.containsKey "result" ^^ j.containsKey "error")

/-- valid_id_type: null, string, signed integer or unsigned integer. -/
def valid_id_type (id : Json) : Bool :=
  id.isNull || id.isString || id.isNumberInteger || id.isNumberUnsigned

/-- validate_request (the why out-parameter is dropped; only the boolean
verdict feeds control flow).  Checks in source order: object, jsonrpc ==
"2.0" (read through value(), which throws on a present non-string
member), method present and string, id valid when present, params array
or object when present.  The checks after the jsonrpc read cannot throw
and are split into this total tail. -/
def validate_request_tail (j : Json) (ver : String) : Bool :=
  if ver ≠ "2.0" then false
  else
    match j.find? "method" with
    | some (.str _) =>
      let idOk := match j.find? "id" with
        | none => true
        | some i => valid_id_type i
      let paramsOk := match j.find? "params" with
        | none => true
        | some p => p.isArray || p.isObject
      idOk && paramsOk
    | _ => false

def validate_request (j : Json) : Except String Bool :=
  if !j.isObject then .ok false
  else
    match j.valueStr "jsonrpc" "" with
    | .error e => .error e
    | .ok ver => .ok (validate_request_tail j ver)

/-- validate_response: object, jsonrpc == "2.0" (same throwing read), id
present and valid, exactly one of result and error, and when error is
present it must be an object with integer code and string message.  As
with validate_request, the non-throwing checks form a total tail. -/
def validate_response_tail (j : Json) (ver : String) : Bool :=
  if ver ≠ "2.0" then false
  else
    let idOk := match j.find? "id" with
      | none => false
      | some i => valid_id_type i
    if !idOk then false
    else
      let hasResult := j.containsKey "result"
      let hasError := j.containsKey "error"
      if hasResult = hasError then false
      else if hasError then
        match j.find? "error" with
        | some e =>
          e.isObject &&
            (match e.find? "code" with
             | some c => c.isNumberInteger
             | none => false) &&
            (match e.find? "message" with
             | some m => m.isString
             | none => false)
        | none => false
      else true

def validate_response (j : Json) : Except String Bool :=
  if !j.isObject then .ok false
  else
    match j.valueStr "jsonrpc" "" with
    | .error e => .error e
    | .ok ver => .ok (validate_response_tail j ver)

/-- The id argument of make_request:
std::variant of nullptr_t, std::string, int64_t, uint64_t. -/
inductive ReqId where
  | null
  | str (s : String)
  | int (n : Int)
  | uint (n : Nat)
deriving DecidableEq

def ReqId.toJson : ReqId → Json
  | .null => .null
  | .str s => .str s
  | .int n => .int n
  | .uint n => .uint n

/-- make_request: jsonrpc and method always; params only when non-null
and non-empty; id only when the variant does not hold nullptr. -/
def make_request (id : ReqId) (method : String) (params : Json := .null) : Json :=
  let j : Json := .obj [("jsonrpc", .str "2.0"), ("method", .str method)]
  let j := if !params.isNull && !params.isEmptyVal then j.setKey "params" params else j
  match id with
  | .null => j
  | _ => j.setKey "id" id.toJson

def make_notification (method : String) (params : Json := .null) : Json :=
  make_request .null method params

def make_result (id : Json) (result : Json) : Json :=
  .obj [("jsonrpc", .str "2.0"), ("id", id), ("result", result)]

def make_error (id : Json) (e : error) : Json :=
  .obj [("jsonrpc", .str "2.0"), ("id", id), ("error", make_error_object e)]

/-- Outcome of invoking a registered handler on a params value, covering
the three cases handle_single distinguishes: a returned json value, a
thrown rpc_exception carrying an error, and any other thrown
std::exception observed through its what() text. -/
inductive HandlerOutcome where
  | ok (result : Json)
  | rpcErr (e : error)
  | exn (what : String)

def Handler := Json → HandlerOutcome

/-- The dispatcher handler registry handlers_ (unordered_map from method
name to handler), modelled as an association list with unique keys. -/
def HandlerMap := List (String × Handler)

def findHandler : HandlerMap → String → Option Handler
  | [], _ => none
  | (m, h) :: rest, key => if m = key then some h else findHandler rest key

/-- dispatcher::add — insert or replace. -/
def addHandler : HandlerMap → String → Handler → HandlerMap
  | [], m, h => [(m, h)]
  | (m', h') :: rest, m, h =>
      if m' = m then (m, h) :: rest else (m', h') :: addHandler rest m h

/-- dispatcher::handle_single.  Validation happens outside the try block,
so a throwing validate_request propagates (Except error).  After a
failed validation the invalid-request error is returned with null id;
otherwise the handler outcome is mapped exactly as the three catch
branches do, with every branch suppressed for notifications. -/
def handle_single (handlers : HandlerMap) (msg : Json) : Except String (Option Json) :=
  match validate_request msg with
  | .error e => .error e
  | .ok false => .ok (some (make_error .null invalid_request))
  | .ok true =>
    let method := match msg.find? "method" with
      | some (.str s) => s
      | _ => ""
    let is_notif := !msg.containsKey "id"
    let id := if is_notif then Json.null else (msg.find? "id").getD .null
    match findHandler handlers method with
    | none =>
      if is_notif then .ok none
      else .ok (some (make_error id method_not_found))
    | some h =>
      let params := (msg.find? "params").getD .null
      match h params with
      | .ok result =>
        if is_notif then .ok none
        else .ok (some (make_result id result))
      | .rpcErr e =>
        if is_notif then .ok none
        else .ok (some (make_error id e))
      | .exn w =>
        if is_notif then .ok none
        else .ok (some (make_error id { internal_error with data := .obj [("what", .str w)] }))

/-- The batch loop of dispatcher::handle: run handle_single on each
element in input order, keeping non-empty results.  An exception from
any element aborts the whole loop, as in the source. -/
def handleBatch (handlers : HandlerMap) : List Json → Except String (List Json)
  | [] => .ok []
  | el :: rest =>
    match handle_single handlers el with
    | .error e => .error e
    | .ok r =>
      match handleBatch handlers rest with
      | .error e => .error e
      | .ok out => .ok (match r with | some x => x :: out | none => out)

/-- dispatcher::handle: arrays are batches (empty batch is an invalid
request with null id; a batch of only notifications yields nothing),
anything else goes through handle_single. -/
def handle (handlers : HandlerMap) (input : Json) : Except String (Option Json) :=
  match input with
  | .arr [] => .ok (some (make_error .null invalid_request))
  | .arr els =>
    match handleBatch handlers els with
    | .error e => .error e
    | .ok out => .ok (if out.isEmpty then none else some (.arr out))
  | _ => handle_single handlers input

/-- detail::deserialize_params for a domain type ParamsT other than json:
the caller-supplied decoder dec models json::get of ParamsT, failing with
the json::exception message.  A one-element array is unwrapped before
decoding; everything else is decoded whole. -/
def deserialize_params {T : Type} (dec : Json → Except String T) (params : Json) : Except String T :=
  match params with
  | .arr [x] => dec x
  | _ => dec params

/-- detail::deserialize_params instantiated at ParamsT = json: the raw
value is passed through unchanged. -/
def deserialize_params_raw (params : Json) : Json := params

/-- detail::make_typed_handler: decode the params, run the typed function
(here already composed with serialize_result, so it yields the response
json), and convert any json::exception from decoding into an
invalid_params rpc_exception whose data.what carries the message. -/
def make_typed_handler {T : Type} (dec : Json → Except String T) (fn : T → Json) : Handler :=
  fun params =>
    match deserialize_params dec params with
    | .ok tp => .ok (fn tp)
    | .error what => .rpcErr { invalid_params with data := .obj [("what", .str what)] }

/-- One entry of the pending-call table pending_: the pair of result and
failure callbacks stored at an id key.  Callbacks are opaque tags
(std::function objects are not inspected, only invoked); an empty
std::function is modelled as none. -/
structure PendingEntry where
  on_ok : Option Nat
  on_err : Option Nat

/-- The mutable state of an endpoint object: the pending-call table
(std::map keyed by id string), the cancellation table server_cancels_
(keyed flag map; the shared_ptr indirection collapses to the flag value,
every code path that touches an entry makes the pointer non-null), the
progress-handler table (callbacks as opaque tags), the ambient current
request id, the configured capabilities, the initialize latch and the
monotonic id counter. -/
@[ext] structure EPState where
  pending : String → Option PendingEntry
  server_cancels : String → Option Bool
  progress_handlers : String → Option Nat
  current_req_id : Option Json
  server_capabilities : Json
  initialized : Bool
  id_counter : Nat

/-- The state an endpoint is constructed with: all tables empty,
capabilities an empty object, not initialized, counter at zero. -/
def initEP : EPState :=
  { pending := fun _ => none
    server_cancels := fun _ => none
    progress_handlers := fun _ => none
    current_req_id := none
    server_capabilities := .obj []
    initialized := false
    id_counter := 0 }

/-- endpoint::key_for_id: strings key as themselves, every other id by
its dump text. -/
def key_for_id (id : Json) : String :=
  match id with
  | .str s => s
  | _ => id.dump

/-- endpoint::gen_id: pre-increment the counter, then prefix ++ decimal. -/
def gen_id (pre : String) (s : EPState) : String × EPState :=
  (pre ++ toString (s.id_counter + 1), { s with id_counter := s.id_counter + 1 })

/-- endpoint::create_progress_token draws from the same counter with the
tok- prefix. -/
def create_progress_token (s : EPState) : String × EPState := gen_id "tok-" s

/-- endpoint::send_request: generate an id, store the callbacks in the
pending table under it, emit make_request through the send function
(collected in the third component), and hand the id back. -/
def send_request (s : EPState) (method : String) (params : Json)
    (on_ok on_err : Option Nat) : String × EPState × List Json :=
  let idp := gen_id "req-" s
  let id := idp.1
  let s1 := idp.2
  let s2 := { s1 with
    pending := fun k => if k = id then some ⟨on_ok, on_err⟩ else s1.pending k }
  (id, s2, [make_request (.str id) method params])

/-- An observed callback invocation: which stored callback fired and with
which argument value. -/
inductive CbCall where
  | onOk (cb : Nat) (arg : Json)
  | onErr (cb : Nat) (arg : Json)

/-- endpoint::handle_incoming_response: read the response id with at()
(throws when absent — receive only calls this under is_response), look up
the pending entry by normalized key; unknown ids are dropped silently;
otherwise the entry is erased first and then exactly one of the two
callbacks is invoked: on_ok with the result member when present,
otherwise on_err with the error member, skipping empty callbacks. -/
def handle_incoming_response (s : EPState) (r : Json) :
    Except String (EPState × List CbCall) :=
  match r.find? "id" with
  | none => .error "out_of_range.403: key id not found"
  | some idv =>
    let key := key_for_id idv
    match s.pending key with
    | none => .ok (s, [])
    | some entry =>
      let s1 := { s with pending := fun k => if k = key then none else s.pending k }
      if r.containsKey "result" then
        .ok (s1, match entry.on_ok with
          | some cb => [CbCall.onOk cb ((r.find? "result").getD .null)]
          | none => [])
      else if r.containsKey "error" then
        .ok (s1, match entry.on_err with
          | some cb => [CbCall.onErr cb ((r.find? "error").getD .null)]
          | none => [])
      else .ok (s1, [])

/-- The closure the endpoint constructor registers for $/cancelRequest:
ignore params without an object id member, otherwise normalize params.id
to its key and set that key's flag to true (the entry is created when
absent — operator[] default-inserts a null pointer which is immediately
replaced by a fresh flag).  Every path returns the null json of a
notification handler. -/
def cancel_request_handler (s : EPState) (params : Json) : EPState × Json :=
  if !params.isObject || !params.containsKey "id" then (s, .null)
  else
    let key := key_for_id ((params.find? "id").getD .null)
    ({ s with
        server_cancels := fun k => if k = key then some true else s.server_cancels k },
      .null)

/-- The poll a handler context performs for a given id key: the shared
flag for that key, false when no flag exists. -/
def is_canceled_for (s : EPState) (key : String) : Bool :=
  (s.server_cancels key).getD false

/-- A message passing validate_request with verdict true. -/
def passesValidation (el : Json) : Bool :=
  match validate_request el with
  | .ok true => true
  | _ => false

/-- Well-formed notification: passes validation and has no id member. -/
def isWfNotif (el : Json) : Bool := passesValidation el && !el.containsKey "id"

/-- A message whose jsonrpc member, when present, is a string: exactly the
messages on which validate_request cannot throw. -/
def jsonrpcClean (j : Json) : Bool :=
  match j.find? "jsonrpc" with
  | some v => v.isString
  | none => true

/-- The id member of a response value (null when absent). -/
def respId (r : Json) : Json := (r.find? "id").getD .null

/-- The id carried by the response handle_single produces for a
non-notification element: the element's own id when it is a well-formed
request with an id, null otherwise. -/
def expectedId (el : Json) : Json :=
  if passesValidation el && el.containsKey "id" then (el.find? "id").getD .null else .null

/-- The value handle_single yields on a non-throwing element. -/
def hsOut (H : HandlerMap) (el : Json) : Option Json :=
  match handle_single H el with
  | .ok r => r
  | .error _ => none

/-- Handler fixture computing params[0] + params[1] on integer array
params, failing like a std::exception otherwise. -/
def addFn : Handler := fun p =>
  match p with
  | .arr [.int a, .int b] => .ok (.int (a + b))
  | _ => .exn "bad params"

/-- Registry fixture with a single arithmetic method. -/
def addRegistry : HandlerMap := [("add", addFn)]

/-- Registry fixture whose only handler throws a std::runtime_error. -/
def throwingRegistry : HandlerMap := [("ping", fun _ => .exn "boom")]

/-- Handler fixture raising a domain rpc_exception with a caller error. -/
def failHandler : Handler :=
  fun _ => .rpcErr { code := -32000, message := "Custom error", data := .obj [("info", .str "test")] }

/-- Handler fixture raising a plain std::runtime_error. -/
def crashHandler : Handler := fun _ => .exn "boom"

/-- Registry fixture with one domain-failing and one crashing method. -/
def faultRegistry : HandlerMap := [("fail", failHandler), ("crash", crashHandler)]

/-- Decoder fixture modelling json::get of an integer domain type. -/
def decInt : Json → Except String Int := fun j =>
  match j with
  | .int n => .ok n
  | _ => .error "type must be number, but is string"

/-- Typed function fixture over the decoded integer. -/
def incResult : Int → Json := fun n => .int (n + 1)

/-- Registry fixture holding one typed handler. -/
def typedRegistry : HandlerMap := [("inc", make_typed_handler decInt incResult)]

/-- Batch fixture: a request with id 10, a notification, and an element
that is not even an object. -/
def sampleBatch : List Json :=
  [make_request (.int 10) "add" (.arr [.int 1, .int 2]),
   make_notification "add" (.arr [.int 3, .int 4]),
   .str "junk"]

theorem make_request_eq (id : ReqId) (method : String) (params : Json) :
    make_request id method params =
      Json.obj ([("jsonrpc", .str "2.0"), ("method", .str method)]
        ++ (if !params.isNull && !params.isEmptyVal then [("params", params)] else [])
        ++ (match id with | .null => [] | i => [("id", i.toJson)])) := by
  cases id <;> cases hp : (!params.isNull && !params.isEmptyVal) <;>
    simp [make_request, Json.setKey, setKeyList, hp]

theorem passesValidation_iff (el : Json) :
    passesValidation el = true ↔ validate_request el = .ok true := by
  unfold passesValidation
  cases h : validate_request el with
  | error e => simp
  | ok b => cases b <;> simp

theorem valueStr_of_lookup_none (ms : List (String × Json)) (k d : String)
    (h : lookupKey ms k = none) : (Json.obj ms).valueStr k d = .ok d := by
  simp [Json.valueStr, h]

theorem valueStr_of_lookup_str (ms : List (String × Json)) (k d s : String)
    (h : lookupKey ms k = some (.str s)) : (Json.obj ms).valueStr k d = .ok s := by
  simp [Json.valueStr, h]

theorem validate_request_clean (el : Json) (hc : jsonrpcClean el = true) :
    ∃ b, validate_request el = .ok b := by
  rcases el with _ | b | n | n | _ | s | xs | ms
  case obj =>
    have hfind : (Json.obj ms).find? "jsonrpc" = lookupKey ms "jsonrpc" := rfl
    unfold jsonrpcClean at hc
    rw [hfind] at hc
    have hv : ∃ s, (Json.obj ms).valueStr "jsonrpc" "" = .ok s := by
      cases hl : lookupKey ms "jsonrpc" with
      | none => exact ⟨"", valueStr_of_lookup_none ms _ _ hl⟩
      | some v =>
        rw [hl] at hc
        rcases v with _ | b | n | n | _ | s | xs | ns <;> simp [Json.isString] at hc
        exact ⟨_, valueStr_of_lookup_str ms _ _ _ hl⟩
    obtain ⟨s, hs⟩ := hv
    refine ⟨validate_request_tail (Json.obj ms) s, ?_⟩
    unfold validate_request
    rw [hs]
    rfl
  all_goals exact ⟨false, rfl⟩

theorem handle_single_clean (H : HandlerMap) (el : Json) (hc : jsonrpcClean el = true) :
    handle_single H el = .ok (hsOut H el) := by
  obtain ⟨b, hb⟩ := validate_request_clean el hc
  have hok : ∃ r, handle_single H el = .ok r := by
    cases b
    · exact ⟨some (make_error .null invalid_request), by simp only [handle_single, hb]⟩
    · simp only [handle_single, hb]
      split
      · split <;> exact ⟨_, rfl⟩
      · split <;> split <;> exact ⟨_, rfl⟩
  obtain ⟨r, hr⟩ := hok
  unfold hsOut
  rw [hr]

/-- handle_single on a well-formed notification yields nothing, whatever
the registry holds and whatever the handler does. -/
theorem handle_single_notif (H : HandlerMap) (n : Json)
    (hval : validate_request n = .ok true) (hid : n.containsKey "id" = false) :
    handle_single H n = .ok none := by
  unfold handle_single
  rw [hval]
  simp only [hid, Bool.not_false, if_true]
  split
  · rfl
  · split <;> rfl

theorem respId_make_result (id x : Json) : respId (make_result id x) = id := by
  simp [respId, make_result, Json.find?, lookupKey]

theorem respId_make_error (id : Json) (e : error) : respId (make_error id e) = id := by
  simp [respId, make_error, Json.find?, lookupKey]

theorem handle_single_non_notif (H : HandlerMap) (el : Json)
    (hc : jsonrpcClean el = true) (hn : isWfNotif el = false) :
    ∃ x, handle_single H el = .ok (some x) ∧ respId x = expectedId el := by
  obtain ⟨b, hb⟩ := validate_request_clean el hc
  cases b
  · have hp : passesValidation el = false := by
      unfold passesValidation
      rw [hb]
    refine ⟨make_error .null invalid_request, by simp only [handle_single, hb], ?_⟩
    simp [expectedId, hp, respId_make_error]
  · have hp : passesValidation el = true := (passesValidation_iff el).mpr hb
    have hid : el.containsKey "id" = true := by
      unfold isWfNotif at hn
      rw [hp] at hn
      simpa using hn
    have hexp : expectedId el = (el.find? "id").getD .null := by
      simp [expectedId, hp, hid]
    simp only [handle_single, hb]
    simp only [hid, Bool.not_true, if_false]
    split
    · exact ⟨_, rfl, by simp [respId_make_error, hexp]⟩
    · split
      · exact ⟨_, rfl, by simp [respId_make_result, hexp]⟩
      · exact ⟨_, rfl, by simp [respId_make_error, hexp]⟩
      · exact ⟨_, rfl, by simp [respId_make_error, hexp]⟩

theorem hsOut_none_iff (H : HandlerMap) (el : Json) (hc : jsonrpcClean el = true) :
    hsOut H el = none ↔ isWfNotif el = true := by
  constructor
  · intro h0
    by_contra hn
    obtain ⟨x, hx, _⟩ := handle_single_non_notif H el hc (by simpa using hn)
    unfold hsOut at h0
    rw [hx] at h0
    exact absurd h0 (by simp)
  · intro hn
    have hp : passesValidation el = true := ((Bool.and_eq_true _ _).mp hn).1
    have hid : el.containsKey "id" = false := by
      have := ((Bool.and_eq_true _ _).mp hn).2
      simpa using this
    have h1 := handle_single_notif H el ((passesValidation_iff el).mp hp) hid
    unfold hsOut
    rw [h1]

theorem handleBatch_clean (H : HandlerMap) :
    ∀ els : List Json, (∀ el ∈ els, jsonrpcClean el = true) →
      handleBatch H els = .ok (els.filterMap (hsOut H))
  | [], _ => rfl
  | el :: rest, hc => by
    have h1 := handle_single_clean H el (hc el (by simp))
    have ih := handleBatch_clean H rest (fun e he => hc e (by simp [he]))
    simp only [handleBatch, h1, ih, List.filterMap_cons]
    cases hsOut H el <;> simp

theorem filterMap_hsOut_length (H : HandlerMap) :
    ∀ els : List Json, (∀ el ∈ els, jsonrpcClean el = true) →
      (els.filterMap (hsOut H)).length = els.length - (els.filter isWfNotif).length
  | [], _ => rfl
  | el :: rest, hc => by
    have ih := filterMap_hsOut_length H rest (fun e he => hc e (by simp [he]))
    have hk := List.length_filter_le isWfNotif rest
    cases hn : isWfNotif el
    · obtain ⟨x, hx, _⟩ := handle_single_non_notif H el (hc el (by simp)) hn
      have hs : hsOut H el = some x := by
        unfold hsOut
        rw [hx]
      simp only [List.filterMap_cons, List.filter_cons, hs, hn, List.length_cons, ih]
      simp only [Bool.false_eq_true, if_false]
      omega
    · have h0 : hsOut H el = none := (hsOut_none_iff H el (hc el (by simp))).mpr hn
      simp only [List.filterMap_cons, List.filter_cons, h0, hn, List.length_cons, ih]
      simp

theorem filterMap_hsOut_ids (H : HandlerMap) :
    ∀ els : List Json, (∀ el ∈ els, jsonrpcClean el = true) →
      (els.filterMap (hsOut H)).map respId =
        (els.filter (fun el => !isWfNotif el)).map expectedId
  | [], _ => rfl
  | el :: rest, hc => by
    have ih := filterMap_hsOut_ids H rest (fun e he => hc e (by simp [he]))
    cases hn : isWfNotif el
    · obtain ⟨x, hx, hrid⟩ := handle_single_non_notif H el (hc el (by simp)) hn
      have hs : hsOut H el = some x := by
        unfold hsOut
        rw [hx]
      simp only [List.filterMap_cons, List.filter_cons, hs, hn, ih, List.map_cons]
      simp [hrid, ih]
    · have h0 : hsOut H el = none := (hsOut_none_iff H el (hc el (by simp))).mpr hn
      simp only [List.filterMap_cons, List.filter_cons, h0, hn, ih]
      simp [ih]

/-- Claim C2 (amended): for every array input B whose object elements
carry a string jsonrpc member whenever one is present, with k the number
of well-formed notifications among its N elements: an empty array yields
a single invalid-request error response with null id; if N = k the
result is absent; if N > k the result is an array of exactly N - k
responses whose ids are, in input order and one per non-notification
element, the element's own id when it is a well-formed request with an
id and null otherwise — hence exactly the element ids whenever every
non-notification element is a well-formed request with an id. -/
theorem C2_batch_shape_amended (H : HandlerMap) (els : List Json)
    (hc : ∀ el ∈ els, jsonrpcClean el = true) :
    handle H (.arr []) = .ok (some (make_error .null invalid_request))
    ∧ (els ≠ [] → (els.filter isWfNotif).length = els.length →
        handle H (.arr els) = .ok none)
    ∧ (els ≠ [] → (els.filter isWfNotif).length < els.length →
        ∃ out, handle H (.arr els) = .ok (some (.arr out))
          ∧ out.length = els.length - (els.filter isWfNotif).length
          ∧ out.map respId = (els.filter (fun el => !isWfNotif el)).map expectedId
          ∧ ((∀ el ∈ els, isWfNotif el = false →
                passesValidation el = true ∧ el.containsKey "id" = true) →
              out.map respId = (els.filter (fun el => !isWfNotif el)).map
                (fun el => (el.find? "id").getD .null))) := by
  refine ⟨rfl, ?_, ?_⟩
  · intro hne hkN
    rcases els with _ | ⟨el, rest⟩
    · exact absurd rfl hne
    · have hb := handleBatch_clean H (el :: rest) hc
      have hl := filterMap_hsOut_length H (el :: rest) hc
      rw [hkN] at hl
      simp only [Nat.sub_self] at hl
      have hempty : (el :: rest).filterMap (hsOut H) = [] :=
        List.length_eq_zero.mp hl
      simp only [handle, hb, hempty]
      rfl
  · intro hne hkN
    rcases els with _ | ⟨el, rest⟩
    · exact absurd rfl hne
    · have hb := handleBatch_clean H (el :: rest) hc
      have hl := filterMap_hsOut_length H (el :: rest) hc
      have hids := filterMap_hsOut_ids H (el :: rest) hc
      refine ⟨(el :: rest).filterMap (hsOut H), ?_, hl, hids, ?_⟩
      · have hnonempty : ((el :: rest).filterMap (hsOut H)).isEmpty = false := by
          have : ((el :: rest).filterMap (hsOut H)).length ≠ 0 := by omega
          cases hfm : (el :: rest).filterMap (hsOut H) with
          | nil => rw [hfm] at this; simp at this
          | cons a l => simp [List.isEmpty]
        simp only [handle, hb, hnonempty]
        rfl
      · intro hall
        rw [hids]
        apply List.map_congr_left
        intro x hx
        have hmem := (List.mem_filter.mp hx).1
        have hnn : isWfNotif x = false := by
          have := (List.mem_filter.mp hx).2
          simpa using this
        obtain ⟨hpv, hidx⟩ := hall x hmem hnn
        simp [expectedId, hpv, hidx]

theorem cancel_handler_sets (s : EPState) (params : Json)
    (hobj : params.isObject = true) (hid : params.containsKey "id" = true) :
    (cancel_request_handler s params).1.server_cancels
      (key_for_id ((params.find? "id").getD .null)) = some true := by
  unfold cancel_request_handler
  simp [hobj, hid]

theorem cancel_handler_idem (s : EPState) (params : Json)
    (hobj : params.isObject = true) (hid : params.containsKey "id" = true) :
    cancel_request_handler (cancel_request_handler s params).1 params =
      cancel_request_handler s params := by
  unfold cancel_request_handler
  simp only [hobj, hid, Bool.not_true, Bool.or_self, Bool.false_eq_true, if_false]
  refine Prod.ext ?_ rfl
  apply EPState.ext <;> try rfl
  funext k
  by_cases hk : k = key_for_id ((params.find? "id").getD .null) <;> simp [hk]

theorem hir_unknown (s : EPState) (r idv : Json)
    (hr : r.find? "id" = some idv) (hp : s.pending (key_for_id idv) = none) :
    handle_incoming_response s r = .ok (s, []) := by
  unfold handle_incoming_response
  rw [hr]
  simp [hp]

theorem hir_result (s : EPState) (r idv : Json) (entry : PendingEntry)
    (hr : r.find? "id" = some idv) (hp : s.pending (key_for_id idv) = some entry)
    (hres : r.containsKey "result" = true) :
    handle_incoming_response s r =
      .ok ({ s with pending := fun k => if k = key_for_id idv then none else s.pending k },
        match entry.on_ok with
        | some cb => [CbCall.onOk cb ((r.find? "result").getD .null)]
        | none => []) := by
  unfold handle_incoming_response
  rw [hr]
  simp [hp, hres]

theorem hir_error (s : EPState) (r idv : Json) (entry : PendingEntry)
    (hr : r.find? "id" = some idv) (hp : s.pending (key_for_id idv) = some entry)
    (hres : r.containsKey "result" = false) (herr : r.containsKey "error" = true) :
    handle_incoming_response s r =
      .ok ({ s with pending := fun k => if k = key_for_id idv then none else s.pending k },
        match entry.on_err with
        | some cb => [CbCall.onErr cb ((r.find? "error").getD .null)]
        | none => []) := by
  unfold handle_incoming_response
  rw [hr]
  simp [hp, hres, herr]

theorem hir_neither (s : EPState) (r idv : Json) (entry : PendingEntry)
    (hr : r.find? "id" = some idv) (hp : s.pending (key_for_id idv) = some entry)
    (hres : r.containsKey "result" = false) (herr : r.containsKey "error" = false) :
    handle_incoming_response s r =
      .ok ({ s with pending := fun k => if k = key_for_id idv then none else s.pending k },
        []) := by
  unfold handle_incoming_response
  rw [hr]
  simp [hp, hres, herr]

/-- Claim C5: send_request returns the id req-(n+1) drawn from the
endpoint counter (starting at 0 in the initial state, so ids count up
from req-1 and the counter increases by one per call), the emitted
message carries exactly that id, the pending table maps the id to the
two callbacks from the send on — unaffected by the cancellation handler
and by inbound responses with other ids — and a matching inbound
response first removes the entry and then invokes exactly the one
callback matching its result/error shape, so a second delivery of the
same response invokes nothing. -/
theorem C5_send_request_correlation (s : EPState) (method : String) (params : Json)
    (okCb errCb : Nat) (rid : String) (s' : EPState) (sent : List Json)
    (hsend : send_request s method params (some okCb) (some errCb) = (rid, s', sent)) :
    rid = "req-" ++ toString (s.id_counter + 1)
    ∧ initEP.id_counter = 0
    ∧ s'.id_counter = s.id_counter + 1
    ∧ sent = [make_request (.str rid) method params]
    ∧ (make_request (.str rid) method params).find? "id" = some (.str rid)
    ∧ s'.pending rid = some ⟨some okCb, some errCb⟩
    ∧ (∀ k, k ≠ rid → s'.pending k = s.pending k)
    ∧ (∀ p, (cancel_request_handler s' p).1.pending = s'.pending)
    ∧ (∀ r idv, r.find? "id" = some idv → key_for_id idv ≠ rid →
        ∃ s2 calls, handle_incoming_response s' r = .ok (s2, calls)
          ∧ s2.pending rid = s'.pending rid)
    ∧ (∀ r : Json, r.find? "id" = some (.str rid) →
        (r.containsKey "result" = true →
          ∃ s2, handle_incoming_response s' r =
              .ok (s2, [CbCall.onOk okCb ((r.find? "result").getD .null)])
            ∧ s2.pending rid = none
            ∧ (∀ k, k ≠ rid → s2.pending k = s'.pending k)
            ∧ handle_incoming_response s2 r = .ok (s2, []))
        ∧ (r.containsKey "result" = false → r.containsKey "error" = true →
          ∃ s2, handle_incoming_response s' r =
              .ok (s2, [CbCall.onErr errCb ((r.find? "error").getD .null)])
            ∧ s2.pending rid = none
            ∧ (∀ k, k ≠ rid → s2.pending k = s'.pending k)
            ∧ handle_incoming_response s2 r = .ok (s2, []))) := by
  simp only [send_request, gen_id] at hsend
  injection hsend with h1 hrest
  injection hrest with h2 h3
  subst h1
  subst h3
  have hpend : s'.pending ("req-" ++ toString (s.id_counter + 1)) =
      some ⟨some okCb, some errCb⟩ := by
    rw [← h2]
    simp
  have hother : ∀ k, k ≠ "req-" ++ toString (s.id_counter + 1) →
      s'.pending k = s.pending k := by
    intro k hk
    rw [← h2]
    simp [hk]
  have hctr : s'.id_counter = s.id_counter + 1 := by
    rw [← h2]
  refine ⟨rfl, rfl, hctr, rfl, ?_, hpend, hother, ?_, ?_, ?_⟩
  · rw [make_request_eq]
    cases hq : (!params.isNull && !params.isEmptyVal) <;>
      simp [Json.find?, lookupKey, ReqId.toJson, hq]
  · intro p
    unfold cancel_request_handler
    split
    · rfl
    · rfl
  · intro r idv hr hk
    cases hp : s'.pending (key_for_id idv) with
    | none => exact ⟨s', [], hir_unknown s' r idv hr hp, rfl⟩
    | some entry =>
      cases hres : r.containsKey "result" with
      | true =>
        refine ⟨_, _, hir_result s' r idv entry hr hp hres, ?_⟩
        simp [Ne.symm hk]
      | false =>
        cases herr : r.containsKey "error" with
        | true =>
          refine ⟨_, _, hir_error s' r idv entry hr hp hres herr, ?_⟩
          simp [Ne.symm hk]
        | false =>
          refine ⟨_, _, hir_neither s' r idv entry hr hp hres herr, ?_⟩
          simp [Ne.symm hk]
  · intro r hr
    have hkey : key_for_id (.str ("req-" ++ toString (s.id_counter + 1))) =
        "req-" ++ toString (s.id_counter + 1) := rfl
    constructor
    · intro hres
      refine ⟨{ s' with pending := fun k =>
          if k = key_for_id (.str ("req-" ++ toString (s.id_counter + 1))) then none
          else s'.pending k }, ?_, ?_, ?_, ?_⟩
      · exact hir_result s' r _ ⟨some okCb, some errCb⟩ hr (by rw [hkey, hpend]) hres
      · simp [hkey]
      · intro k hk
        simp [hkey, hk]
      · apply hir_unknown _ r _ hr
        simp [hkey]
    · intro hres herr
      refine ⟨{ s' with pending := fun k =>
          if k = key_for_id (.str ("req-" ++ toString (s.id_counter + 1))) then none
          else s'.pending k }, ?_, ?_, ?_, ?_⟩
      · exact hir_error s' r _ ⟨some okCb, some errCb⟩ hr (by rw [hkey, hpend]) hres herr
      · simp [hkey]
      · intro k hk
        simp [hkey, hk]
      · apply hir_unknown _ r _ hr
        simp [hkey]

/-- Claim C1: for every well-formed notification (a message passing
structural request validation with no id member), handle_single returns
nothing, whatever registry is installed and whether its handler returns,
raises a domain error, or raises any other error. -/
theorem C1_notification_silent (H : HandlerMap) (n : Json)
    (hval : validate_request n = .ok true) (hid : n.containsKey "id" = false) :
    handle_single H n = .ok none :=
  handle_single_notif H n hval hid

theorem C1_notification_silent_witness :
    validate_request (make_notification "ping" (.arr [.int 1])) = .ok true
    ∧ (make_notification "ping" (.arr [.int 1])).containsKey "id" = false
    ∧ handle_single throwingRegistry (make_notification "ping" (.arr [.int 1])) = .ok none :=
  ⟨rfl, rfl, C1_notification_silent throwingRegistry (make_notification "ping" (.arr [.int 1])) rfl rfl⟩

/-- Claim C2 counterexample: the claim as stated fails twice.  A batch
holding one malformed element with id 7 produces one response whose id
is null, and null is not drawn from the non-notification element ids
[7]; and a batch holding an element with a numeric jsonrpc member makes
the whole call raise instead of producing the promised N - k response
array. -/
theorem C2_counterexample :
    handle [] (.arr [Json.obj [("jsonrpc", .str "2.0"), ("method", .int 5), ("id", .int 7)]]) =
      .ok (some (.arr [make_error .null invalid_request]))
    ∧ isWfNotif (Json.obj [("jsonrpc", .str "2.0"), ("method", .int 5), ("id", .int 7)]) = false
    ∧ respId (make_error .null invalid_request) = Json.null
    ∧ (Json.obj [("jsonrpc", .str "2.0"), ("method", .int 5), ("id", .int 7)]).find? "id" =
        some (.int 7)
    ∧ handle [] (.arr [Json.obj [("jsonrpc", .int 1), ("method", .str "x"), ("id", .int 1)]]) =
      .error typeError302 :=
  ⟨rfl, rfl, rfl, rfl, rfl⟩

theorem C2_batch_shape_amended_witness :
    ∃ out, handle addRegistry (.arr sampleBatch) = .ok (some (.arr out))
      ∧ out.length = 2
      ∧ out.map respId = [Json.int 10, Json.null] := by
  obtain ⟨-, -, h3⟩ := C2_batch_shape_amended addRegistry sampleBatch (by decide)
  obtain ⟨out, h1, h2, h3, -⟩ := h3 (by simp [sampleBatch]) (by decide)
  refine ⟨out, h1, ?_, ?_⟩
  · rw [h2]
    rfl
  · rw [h3]
    rfl

/-- Claim C3 (code bug evidence): a message whose jsonrpc member is
present but not a string fails the structural conditions the claim
lists, yet handle_single raises the decoder's type error out of
validate_request instead of returning the invalid-request response with
null id; a message that fails validation without touching that read does
get the promised response even though it carries a valid id. -/
theorem C3_invalid_request_throws :
    handle_single [] (Json.obj [("jsonrpc", .bool true), ("method", .str "x"), ("id", .int 7)]) =
      .error typeError302
    ∧ handle_single [] (Json.obj [("jsonrpc", .str "2.0"), ("id", .int 7)]) =
      .ok (some (make_error .null invalid_request)) :=
  ⟨rfl, rfl⟩

/-- Claim C4: for a well-formed request with an id whose handler raises
a domain error carrying an error object, handle_single answers with that
error verbatim under the request's id (code and message always, data
exactly when non-null); and when the handler raises any other error it
answers under the request's id with code -32603 and the failure text in
data.what. -/
theorem C4_handler_errors (H : HandlerMap) (r : Json) (m : String) (h : Handler)
    (e : error) (w : String)
    (hval : validate_request r = .ok true) (hid : r.containsKey "id" = true)
    (hm : r.find? "method" = some (.str m)) (hh : findHandler H m = some h) :
    (h ((r.find? "params").getD .null) = .rpcErr e →
        handle_single H r = .ok (some (make_error ((r.find? "id").getD .null) e))
        ∧ (make_error_object e).find? "code" = some (.int e.code)
        ∧ (make_error_object e).find? "message" = some (.str e.message)
        ∧ (e.data.isNull = false → (make_error_object e).find? "data" = some e.data))
    ∧ (h ((r.find? "params").getD .null) = .exn w →
        handle_single H r =
          .ok (some (make_error ((r.find? "id").getD .null)
            { internal_error with data := .obj [("what", .str w)] }))
        ∧ (make_error_object { internal_error with data := .obj [("what", .str w)] }).find? "code"
            = some (.int (-32603))
        ∧ (((make_error_object { internal_error with data := .obj [("what", .str w)] }).find?
            "data").getD .null).find? "what" = some (.str w)) := by
  constructor
  · intro ho
    refine ⟨?_, ?_, ?_, ?_⟩
    · unfold handle_single
      rw [hval]
      simp only [hid, hm, hh, ho, Bool.not_true]
      simp
    · cases hd : e.data.isNull <;>
        simp [make_error_object, Json.setKey, setKeyList, Json.find?, lookupKey, hd]
    · cases hd : e.data.isNull <;>
        simp [make_error_object, Json.setKey, setKeyList, Json.find?, lookupKey, hd]
    · intro hd
      simp [make_error_object, Json.setKey, setKeyList, Json.find?, lookupKey, hd]
  · intro ho
    refine ⟨?_, ?_, ?_⟩
    · unfold handle_single
      rw [hval]
      simp only [hid, hm, hh, ho, Bool.not_true]
      simp
    · rfl
    · rfl

theorem C4_handler_errors_witness :
    handle_single faultRegistry (make_request (.int 1) "fail" (.arr [.int 0])) =
      .ok (some (make_error (.int 1)
        { code := -32000, message := "Custom error", data := .obj [("info", .str "test")] }))
    ∧ handle_single faultRegistry (make_request (.int 2) "crash" (.arr [.int 0])) =
      .ok (some (make_error (.int 2)
        { internal_error with data := .obj [("what", .str "boom")] })) := by
  constructor
  · exact ((C4_handler_errors faultRegistry (make_request (.int 1) "fail" (.arr [.int 0]))
      "fail" failHandler
      { code := -32000, message := "Custom error", data := .obj [("info", .str "test")] } "w"
      rfl rfl rfl rfl).1 rfl).1
  · exact ((C4_handler_errors faultRegistry (make_request (.int 2) "crash" (.arr [.int 0]))
      "crash" crashHandler { code := 0, message := "" } "boom"
      rfl rfl rfl rfl).2 rfl).1

theorem C5_send_request_correlation_witness :
    (send_request initEP "multiply" (.arr [.int 6, .int 7]) (some 1) (some 2)).1 = "req-1"
    ∧ (send_request initEP "multiply" (.arr [.int 6, .int 7]) (some 1) (some 2)).2.1.pending
        "req-1" = some ⟨some 1, some 2⟩
    ∧ ∃ s2, handle_incoming_response
          (send_request initEP "multiply" (.arr [.int 6, .int 7]) (some 1) (some 2)).2.1
          (make_result (.str "req-1") (.int 42)) =
        .ok (s2, [CbCall.onOk 1 (.int 42)])
      ∧ s2.pending "req-1" = none
      ∧ handle_incoming_response s2 (make_result (.str "req-1") (.int 42)) = .ok (s2, []) := by
  have h := C5_send_request_correlation initEP "multiply" (.arr [.int 6, .int 7]) 1 2
    (send_request initEP "multiply" (.arr [.int 6, .int 7]) (some 1) (some 2)).1
    (send_request initEP "multiply" (.arr [.int 6, .int 7]) (some 1) (some 2)).2.1
    (send_request initEP "multiply" (.arr [.int 6, .int 7]) (some 1) (some 2)).2.2 rfl
  obtain ⟨h1, -, -, -, -, h6, -, -, -, h10⟩ := h
  refine ⟨h1, h6, ?_⟩
  obtain ⟨s2, ha, hb, -, hd⟩ := (h10 (make_result (.str "req-1") (.int 42)) rfl).1 rfl
  exact ⟨s2, ha, hb, hd⟩

/-- Claim C6 (code bug evidence): an object that is request-shaped and
carries an id but stores its jsonrpc member as a number makes
dispatcher handle raise the decoder's type error out of the call — no
JSON-RPC-shaped response is produced and the failure escapes to the
caller, through endpoint receive as well, since receive consults the
same throwing reads. -/
theorem C6_no_crash_violated :
    handle [] (Json.obj [("jsonrpc", .int 1), ("method", .str "x"), ("id", .int 1)]) =
      .error typeError302
    ∧ (Json.obj [("jsonrpc", .int 1), ("method", .str "x"), ("id", .int 1)]).containsKey "id"
        = true :=
  ⟨rfl, rfl⟩

/-- Claim C7: building a request from any id variant, method and
array-or-object params yields a message validate_request accepts, and
building a result or error response from any valid id yields a message
validate_response accepts. -/
theorem C7_round_trip (id : ReqId) (idj : Json) (method : String) (params v : Json) (e : error)
    (hp : (params.isArray || params.isObject) = true) (hid : valid_id_type idj = true) :
    validate_request (make_request id method params) = .ok true
    ∧ validate_response (make_result idj v) = .ok true
    ∧ validate_response (make_error idj e) = .ok true := by
  refine ⟨?_, ?_, ?_⟩
  · rw [make_request_eq]
    cases id <;> cases hq : (!params.isNull && !params.isEmptyVal) <;>
      simp [validate_request, validate_request_tail, Json.valueStr, Json.find?, lookupKey,
        Json.isObject, valid_id_type, Json.isString, Json.isNumberInteger,
        Json.isNumberUnsigned, ReqId.toJson, hq, hp] <;>
      exact (Bool.or_eq_true _ _).mp hp
  · simp [validate_response, validate_response_tail, make_result, Json.valueStr, Json.find?,
      lookupKey, Json.containsKey, Json.isObject, hid]
  · cases he : e.data.isNull <;>
      simp [validate_response, validate_response_tail, make_error, make_error_object,
        Json.setKey, setKeyList, Json.valueStr, Json.find?, lookupKey, Json.containsKey,
        Json.isObject, Json.isNumberInteger, Json.isString, hid, he]

theorem C7_round_trip_witness :
    ((Json.arr [.int 5, .int 3]).isArray || (Json.arr [.int 5, .int 3]).isObject) = true
    ∧ valid_id_type (.int 1) = true
    ∧ validate_request (make_request (.int 1) "add" (.arr [.int 5, .int 3])) = .ok true
    ∧ validate_response (make_result (.int 1) (.int 8)) = .ok true
    ∧ validate_response (make_error (.int 1) method_not_found) = .ok true := by
  have h := C7_round_trip (.int 1) (.int 1) "add" (.arr [.int 5, .int 3]) (.int 8)
    method_not_found rfl rfl
  exact ⟨rfl, rfl, h.1, h.2.1, h.2.2⟩

/-- Claim C8: typed parameter unwrapping — the raw value-tree type passes
params through unchanged, a one-element array is unwrapped and its only
element decoded, any other shape is decoded whole, and a decode failure
surfaces through handle_single as an invalid-params response (code
-32602) whose data.what is the decoder's message. -/
theorem C8_typed_param_unwrap (T : Type) (dec : Json → Except String T) (fn : T → Json)
    (v x : Json) (H : HandlerMap) (r : Json) (m w : String)
    (hval : validate_request r = .ok true) (hid : r.containsKey "id" = true)
    (hm : r.find? "method" = some (.str m))
    (hh : findHandler H m = some (make_typed_handler dec fn))
    (hdec : deserialize_params dec ((r.find? "params").getD .null) = .error w) :
    deserialize_params_raw v = v
    ∧ deserialize_params dec (.arr [x]) = dec x
    ∧ ((∀ y, v ≠ .arr [y]) → deserialize_params dec v = dec v)
    ∧ handle_single H r = .ok (some (make_error ((r.find? "id").getD .null)
        { invalid_params with data := .obj [("what", .str w)] }))
    ∧ (make_error_object { invalid_params with data := .obj [("what", .str w)] }).find? "code"
        = some (.int (-32602))
    ∧ (((make_error_object { invalid_params with data := .obj [("what", .str w)] }).find?
        "data").getD .null).find? "what" = some (.str w) := by
  refine ⟨rfl, rfl, ?_, ?_, rfl, rfl⟩
  · intro hv
    match v with
    | .arr [y] => exact absurd rfl (hv y)
    | .null | .bool _ | .int _ | .uint _ | .float | .str _ | .obj _ => rfl
    | .arr [] => rfl
    | .arr (y :: z :: rest) => rfl
  · unfold handle_single
    rw [hval]
    simp only [hid, hm, hh, Bool.not_true]
    simp only [make_typed_handler, hdec]
    simp

theorem C8_typed_param_unwrap_witness :
    deserialize_params decInt (.arr [.int 41]) = decInt (.int 41)
    ∧ handle_single typedRegistry (make_request (.int 9) "inc" (.arr [.str "x"])) =
        .ok (some (make_error (.int 9)
          { invalid_params with
            data := .obj [("what", .str "type must be number, but is string")] })) := by
  have h := C8_typed_param_unwrap Int decInt incResult (.str "q") (.int 41) typedRegistry
    (make_request (.int 9) "inc" (.arr [.str "x"])) "inc" "type must be number, but is string"
    rfl rfl rfl rfl rfl
  exact ⟨h.2.1, h.2.2.2.1⟩

/-- Claim C9: the $/cancelRequest handler sets the flag stored under the
normalized key of params.id to true, creating the entry when absent;
delivering the same notification again leaves the state exactly as after
the first delivery; the poll for that key then reads true; the handler
returns the null value of a notification; and no other key of the
cancellation table is touched. -/
theorem C9_cancellation_idempotent (s : EPState) (params : Json)
    (hobj : params.isObject = true) (hid : params.containsKey "id" = true) :
    (cancel_request_handler s params).1.server_cancels
        (key_for_id ((params.find? "id").getD .null)) = some true
    ∧ is_canceled_for (cancel_request_handler s params).1
        (key_for_id ((params.find? "id").getD .null)) = true
    ∧ cancel_request_handler (cancel_request_handler s params).1 params =
        cancel_request_handler s params
    ∧ (cancel_request_handler s params).2 = Json.null
    ∧ (∀ k, k ≠ key_for_id ((params.find? "id").getD .null) →
        (cancel_request_handler s params).1.server_cancels k = s.server_cancels k) := by
  refine ⟨cancel_handler_sets s params hobj hid, ?_,
    cancel_handler_idem s params hobj hid, ?_, ?_⟩
  · unfold is_canceled_for
    rw [cancel_handler_sets s params hobj hid]
    rfl
  · unfold cancel_request_handler
    simp [hobj, hid]
  · intro k hk
    unfold cancel_request_handler
    simp [hobj, hid, hk]

theorem C9_cancellation_idempotent_witness :
    (Json.obj [("id", .int 42)]).isObject = true
    ∧ (Json.obj [("id", .int 42)]).containsKey "id" = true
    ∧ is_canceled_for (cancel_request_handler initEP (.obj [("id", .int 42)])).1 "42" = true
    ∧ cancel_request_handler
        (cancel_request_handler initEP (.obj [("id", .int 42)])).1 (.obj [("id", .int 42)]) =
      cancel_request_handler initEP (.obj [("id", .int 42)]) := by
  have h := C9_cancellation_idempotent initEP (.obj [("id", .int 42)]) rfl rfl
  exact ⟨rfl, rfl, h.2.1, h.2.2.1⟩

/-- Claim C10: make_request with the null variant produces a message
with no id member at all, classified as a notification;
make_notification is exactly make_request at the null variant; and no id
variant produces a message whose id member is the null value. -/
theorem C10_null_id_is_notification (method : String) (params : Json) (id : ReqId) :
    (make_request .null method params).containsKey "id" = false
    ∧ is_notification (make_request .null method params) = .ok true
    ∧ make_notification method params = make_request .null method params
    ∧ (make_request id method params).find? "id" ≠ some Json.null := by
  refine ⟨?_, ?_, rfl, ?_⟩
  · rw [make_request_eq]
    cases hq : (!params.isNull && !params.isEmptyVal) <;>
      simp [Json.containsKey, Json.find?, lookupKey, hq]
  · rw [make_request_eq]
    cases hq : (!params.isNull && !params.isEmptyVal) <;>
      simp [is_notification, is_request, Json.valueStr, Json.find?, lookupKey,
        Json.containsKey, Json.isObject, hq, Bind.bind, Except.bind, pure, Except.pure]
  · rw [make_request_eq]
    cases id <;> cases hq : (!params.isNull && !params.isEmptyVal) <;>
      simp [Json.find?, lookupKey, ReqId.toJson, hq]
